import Mathlib

/-!
A shallow embedding of the boomerang retrying HTTP client (package
`boomerang`): the request model, the default retry policy, the retry
executor loops of the two client variants (the rewinding `HttpClient`
and the breaker-wrapped `HystrixClient`), and the three backoff
strategies.  Machine integers (Go `int`, `int64`, `time.Duration`) are
modelled as `Int`; Go `float64` arithmetic in the backoff strategies is
modelled as exact rational arithmetic, with the `time.Duration(...)`
float-to-int conversion modelled as truncation toward zero.  Side
effects of the executor loops (transport attempts, body seeks, body
drains, backoff sleeps) are recorded in an explicit event trace.
-/

namespace Boomerang

/-- A non-nil `*http.Response`; only the status code is relevant to the
retry logic. -/
structure Response where
  statusCode : Int
deriving DecidableEq, Repr

/-- A non-nil Go `error` value, identified by its message string. -/
structure Err where
  msg : String
deriving DecidableEq, Repr

/-- The outcome of one transport call `c.client.Do(req)`: the Go HTTP
client returns a non-nil response with a nil error, or a nil response
with a non-nil error, never both nor neither. -/
inductive Outcome where
  | ok (resp : Response)
  | fail (e : Err)
deriving DecidableEq, Repr

/-- The `resp` component of a transport outcome (`nil` on failure). -/
def Outcome.toResp : Outcome → Option Response
  | .ok r => some r
  | .fail _ => none

/-- The `err` component of a transport outcome (`nil` on success). -/
def Outcome.toErr : Outcome → Option Err
  | .ok _ => none
  | .fail e => some e

/-- The synthesized exhaustion error
`fmt.Errorf("%s %s giving up after %d attempts", method, url, n)`. -/
def givingUpErr (method url : String) (attempts : Int) : Err :=
  ⟨method ++ " " ++ url ++ " giving up after " ++ toString attempts ++ " attempts"⟩

/-- The body-rewind failure error
`fmt.Errorf("failed to seek body: %v", err)`. -/
def seekFailErr (e : Err) : Err :=
  ⟨"failed to seek body: " ++ e.msg⟩

/-- Embedding of `DefaultRetryPolicy(resp *http.Response, err error)`.
In Go it takes the response and error separately; under the transport
contract (nil response iff non-nil error) the pair is exactly an
`Outcome`.  With a non-nil error it returns `(true, err)`; otherwise it
returns `(true, nil)` when the status code is 0 or at least 500, and
`(false, nil)` for every other status. -/
def DefaultRetryPolicy : Outcome → Bool × Option Err
  | .fail e => (true, some e)
  | .ok r => if r.statusCode = 0 ∨ 500 ≤ r.statusCode then (true, none) else (false, none)

/-- The retry-relevant configuration shared by `HttpClient` and
`HystrixClient`: `MaxRetries` (a Go `int`), the `Backoff` strategy's
`NextInterval` method, and the `CheckRetry` policy. -/
structure ClientModel where
  maxRetries : Int
  backoff : Int → Int
  checkRetry : Outcome → Bool × Option Err

/-- The boomerang `Request` wrapper as seen by `HttpClient.Do`: the
method and URL of the embedded `*http.Request`, and the optional
seekable body.  A present body is modelled by the behaviour of its
`Seek(0, 0)` calls: `body = some sf` and `sf i = some e` means the seek
performed at loop iteration `i` fails with error `e`, while `sf i =
none` means it succeeds. -/
structure ReqModel where
  method : String
  url : String
  body : Option (Nat → Option Err)

/-- A plain `*http.Request` as seen by `HystrixClient.Do` (no body
wrapper: that variant never rewinds). -/
structure PlainReq where
  method : String
  url : String

/-- One observable side effect of an executor loop, indexed by the loop
iteration that produced it: a `req.body.Seek(0, 0)` call, a transport
attempt `c.client.Do`, a `drainBody` of the response body (which also
closes it), or a `time.Sleep` of the given duration. -/
inductive Event where
  | seek (i : Nat)
  | attempt (i : Nat)
  | drain (i : Nat)
  | sleep (d : Int)
deriving DecidableEq, Repr

/-- Result of `HttpClient.Do`: the returned `(*http.Response, error)`
pair plus the trace of side effects. -/
structure DoRes where
  resp : Option Response
  err : Option Err
  events : List Event
deriving DecidableEq, Repr

/-- Result value of `HystrixClient.Do`: either a normal return of a
`(*http.Response, error)` pair, or a nil-pointer panic (`drainBody`
invoked on a nil response's body). -/
inductive HOut where
  | ret (resp : Option Response) (err : Option Err)
  | panicked
deriving DecidableEq, Repr

/-- Result of `HystrixClient.Do`: outcome plus event trace. -/
structure HRes where
  out : HOut
  events : List Event
deriving DecidableEq, Repr

/-- Go `if checkErr != nil { err = checkErr }`: the override error
replaces the natural error when non-nil. -/
def overrideErr : Option Err → Option Err → Option Err
  | some e, _ => some e
  | none, natE => natE

/-- Go `if err == nil { c.drainBody(resp.Body) }`: a drain event is
emitted exactly when the attempt produced a response. -/
def consDrain (o : Outcome) (i : Nat) (l : List Event) : List Event :=
  match o with
  | .ok _ => .drain i :: l
  | .fail _ => l

/-- One iteration of the `HttpClient.Do` loop after the body seek:
issue the attempt, consult `CheckRetry`; on a terminal decision return
the response together with the (possibly overridden) error; on a
retryable decision drain the response body (if any), sleep the backoff
interval for the current index, and continue with `rest`. -/
def httpIter (c : ClientModel) (tr : Nat → Outcome) (i : Nat) (rest : DoRes) : DoRes :=
  let o := tr i
  let cr := c.checkRetry o
  if cr.fst = false then
    ⟨o.toResp, overrideErr cr.snd o.toErr, [.attempt i]⟩
  else
    ⟨rest.resp, rest.err,
      .attempt i :: consDrain o i (.sleep (c.backoff (i : Int)) :: rest.events)⟩

/-- The `for i := 0; i < c.MaxRetries; i++` loop of `HttpClient.Do`,
with `fuel` the number of remaining iterations (`c.MaxRetries - i`).
Falling out of the loop returns
`nil, fmt.Errorf("%s %s giving up after %d attempts", ..., c.MaxRetries)`.
Each iteration first rewinds a non-nil body with `Seek(0, 0)`; a seek
failure aborts the whole call with `nil` and a seek-failure error. -/
def httpDoLoop (c : ClientModel) (req : ReqModel) (tr : Nat → Outcome) :
    Nat → Nat → DoRes
  | _, 0 => ⟨none, some (givingUpErr req.method req.url c.maxRetries), []⟩
  | i, fuel + 1 =>
    match req.body with
    | some sf =>
      match sf i with
      | some e => ⟨none, some (seekFailErr e), [.seek i]⟩
      | none =>
        let r := httpIter c tr i (httpDoLoop c req tr (i + 1) fuel)
        ⟨r.resp, r.err, .seek i :: r.events⟩
    | none => httpIter c tr i (httpDoLoop c req tr (i + 1) fuel)

/-- Embedding of `HttpClient.Do` (the rewinding client): run the loop
from `i = 0`; the loop bound `i < c.MaxRetries` yields
`c.maxRetries.toNat` iterations.  `tr i` is the outcome of the
transport call at iteration `i`. -/
def httpDo (c : ClientModel) (req : ReqModel) (tr : Nat → Outcome) : DoRes :=
  httpDoLoop c req tr 0 c.maxRetries.toNat

/-- The `for i := 0; i < c.MaxRetries; i++` loop of `HystrixClient.Do`,
modelling the breaker in its closed state with no fallback function
configured: `hystrix.Do(name, run, nil)` executes `run` and returns the
error `run` returns.  The inner `run` issues the attempt and consults
`CheckRetry`: on a terminal decision it returns the (possibly
overridden) error; on a retryable decision it returns `nil`.  The outer
loop sleeps and retries when `hystrix.Do` returned a non-nil error;
otherwise it drains the response body and returns the response (a nil
response at that point is a nil-pointer panic in `drainBody`).  Falling
out of the loop returns `nil` and the exhaustion error naming
`c.MaxRetries + 1` attempts. -/
def hystrixDoLoop (c : ClientModel) (req : PlainReq) (tr : Nat → Outcome) :
    Nat → Nat → HRes
  | _, 0 => ⟨.ret none (some (givingUpErr req.method req.url (c.maxRetries + 1))), []⟩
  | i, fuel + 1 =>
    let o := tr i
    let cr := c.checkRetry o
    let innerErr := if cr.fst = false then overrideErr cr.snd o.toErr else none
    match innerErr with
    | some _ =>
      let rest := hystrixDoLoop c req tr (i + 1) fuel
      ⟨rest.out, .attempt i :: .sleep (c.backoff (i : Int)) :: rest.events⟩
    | none =>
      match o with
      | .ok r => ⟨.ret (some r) none, [.attempt i, .drain i]⟩
      | .fail _ => ⟨.panicked, [.attempt i]⟩

/-- Embedding of `HystrixClient.Do` (breaker closed, no fallback). -/
def hystrixDo (c : ClientModel) (req : PlainReq) (tr : Nat → Outcome) : HRes :=
  hystrixDoLoop c req tr 0 c.maxRetries.toNat

/-- Number of transport attempts recorded in a trace. -/
def attemptsOf : List Event → Nat
  | [] => 0
  | .attempt _ :: l => attemptsOf l + 1
  | .seek _ :: l => attemptsOf l
  | .drain _ :: l => attemptsOf l
  | .sleep _ :: l => attemptsOf l

/-- Number of body seeks recorded in a trace. -/
def seeksOf : List Event → Nat
  | [] => 0
  | .seek _ :: l => seeksOf l + 1
  | .attempt _ :: l => seeksOf l
  | .drain _ :: l => seeksOf l
  | .sleep _ :: l => seeksOf l

/-- The backoff sleep durations recorded in a trace, in order. -/
def sleepsOf : List Event → List Int
  | [] => []
  | .sleep d :: l => d :: sleepsOf l
  | .seek _ :: l => sleepsOf l
  | .attempt _ :: l => sleepsOf l
  | .drain _ :: l => sleepsOf l

/-- Number of body drains recorded in a trace. -/
def drainsOf : List Event → Nat
  | [] => 0
  | .drain _ :: l => drainsOf l + 1
  | .seek _ :: l => drainsOf l
  | .attempt _ :: l => drainsOf l
  | .sleep _ :: l => drainsOf l

/-- Go's `time.Duration(f)` conversion of a `float64` to an `int64`
duration: truncation toward zero, modelled on exact rationals. -/
def truncQ (q : ℚ) : Int :=
  if 0 ≤ q then ⌊q⌋ else ⌈q⌉

/-- The `exponentialBackoff` strategy: exponent factor and the
minimum and maximum timeouts (durations in nanoseconds). -/
structure exponentialBackoff where
  factor : ℚ
  minTimeout : Int
  maxTimeout : Int

/-- Embedding of `exponentialBackoff.NextInterval`: zero for a
non-positive retry count, else
`time.Duration(math.Min(math.Pow(factor, n) * minTimeout, maxTimeout))`. -/
def exponentialBackoff.NextInterval (e : exponentialBackoff) (retryCount : Int) : Int :=
  if retryCount ≤ 0 then 0
  else truncQ (min (e.factor ^ retryCount.toNat * (e.minTimeout : ℚ)) (e.maxTimeout : ℚ))

/-- The `jitterBackoff` strategy. -/
structure jitterBackoff where
  factor : ℚ
  minTimeout : Int
  maxTimeout : Int

/-- Embedding of `jitterBackoff.NextInterval`; `randv` is the value
drawn from `rand.Float64()` (uniform in `[0, 1)`): zero for a
non-positive retry count, else
`rand.Float64()*(minTimeout*factor^n - minTimeout) + minTimeout`
converted to a duration and clamped to `[minTimeout, maxTimeout]`. -/
def jitterBackoff.NextInterval (e : jitterBackoff) (randv : ℚ) (retryCount : Int) : Int :=
  if retryCount ≤ 0 then 0
  else
    let minf : ℚ := (e.minTimeout : ℚ)
    let durf := minf * e.factor ^ retryCount.toNat
    let dur := truncQ (randv * (durf - minf) + minf)
    if dur < e.minTimeout then e.minTimeout
    else if e.maxTimeout < dur then e.maxTimeout
    else dur

/-- The `constantBackoff` strategy. -/
structure constantBackoff where
  timeout : Int

/-- Embedding of `constantBackoff.NextInterval`: zero for a
non-positive retry count, else the fixed timeout. -/
def constantBackoff.NextInterval (cb : constantBackoff) (retryCount : Int) : Int :=
  if retryCount ≤ 0 then 0
  else cb.timeout

/-- A request body as seen by `NewRequest`: `len = some n` models a
body whose dynamic type implements the `LenReader` interface with
`Len() == n`; `len = none` models a body without a `Len` method. -/
structure LenBody where
  len : Option Int

/-- The `*http.Request` produced by the standard library's
`http.NewRequest`, restricted to the fields the wrapper touches. -/
structure HttpRequestModel where
  method : String
  url : String
  contentLength : Int
deriving DecidableEq, Repr

/-- Embedding of the rewinding variant's `NewRequest`: `httpNew` is the
outcome of the standard library call `http.NewRequest(method, url,
rcBody)` (an error on a malformed method or URL, else a base request
with the standard library's own `ContentLength`).  On success the
wrapper checks whether the body implements `LenReader` and, if so,
overwrites `ContentLength` with `int64(body.Len())`, then returns the
`Request` pair of the body and the decorated request. -/
def NewRequest (body : Option LenBody) (httpNew : Except Err HttpRequestModel) :
    Except Err (Option LenBody × HttpRequestModel) :=
  match httpNew with
  | .error e => .error e
  | .ok base =>
    match body with
    | some b =>
      match b.len with
      | some n => .ok (some b, { base with contentLength := n })
      | none => .ok (some b, base)
    | none => .ok (none, base)

/-! ### Counting helpers -/

@[simp]
theorem attemptsOf_consDrain (o : Outcome) (i : Nat) (l : List Event) :
    attemptsOf (consDrain o i l) = attemptsOf l := by
  cases o <;> simp [consDrain, attemptsOf]

@[simp]
theorem seeksOf_consDrain (o : Outcome) (i : Nat) (l : List Event) :
    seeksOf (consDrain o i l) = seeksOf l := by
  cases o <;> simp [consDrain, seeksOf]

@[simp]
theorem sleepsOf_consDrain (o : Outcome) (i : Nat) (l : List Event) :
    sleepsOf (consDrain o i l) = sleepsOf l := by
  cases o <;> simp [consDrain, sleepsOf]

/-! ### Loop lemmas for the rewinding client -/

/-- When every body seek succeeds and the retry policy judges every
attempt's outcome retryable, the `HttpClient.Do` loop runs all its
remaining iterations, makes one transport attempt per iteration, and
falls out with a nil response and the exhaustion error. -/
theorem httpDoLoop_allRetry (c : ClientModel) (req : ReqModel) (tr : Nat → Outcome)
    (hseek : ∀ j sf, req.body = some sf → sf j = none)
    (hretry : ∀ j, (c.checkRetry (tr j)).fst = true) :
    ∀ (fuel i : Nat),
      (httpDoLoop c req tr i fuel).resp = none ∧
      (httpDoLoop c req tr i fuel).err = some (givingUpErr req.method req.url c.maxRetries) ∧
      attemptsOf (httpDoLoop c req tr i fuel).events = fuel := by
  intro fuel
  induction fuel with
  | zero => intro i; exact ⟨rfl, rfl, rfl⟩
  | succ f ih =>
    intro i
    obtain ⟨ih1, ih2, ih3⟩ := ih (i + 1)
    have hcr := hretry i
    cases hb : req.body with
    | none =>
      simp only [httpDoLoop, hb, httpIter, hcr]
      simp [attemptsOf, ih1, ih2, ih3]
    | some sf =>
      have hsf := hseek i sf hb
      simp only [httpDoLoop, hb, hsf, httpIter, hcr]
      simp [attemptsOf, ih1, ih2, ih3]

/-- When the first attempt's outcome is a response that the policy
judges retryable, `HystrixClient.Do` (breaker closed, no fallback)
drains that response and returns it with a nil error after a single
transport attempt: the inner hystrix function returns nil on a
retryable decision, which the outer loop treats as final success. -/
theorem hystrixDo_firstRetryableOk (c : ClientModel) (req : PlainReq) (tr : Nat → Outcome)
    (r : Response) (hm : 0 < c.maxRetries)
    (hcr : (c.checkRetry (.ok r)).fst = true) (h0 : tr 0 = .ok r) :
    hystrixDo c req tr = ⟨.ret (some r) none, [.attempt 0, .drain 0]⟩ := by
  obtain ⟨n, hn⟩ : ∃ n, c.maxRetries.toNat = n + 1 :=
    ⟨c.maxRetries.toNat - 1, by omega⟩
  simp only [hystrixDo, hn, hystrixDoLoop, h0, hcr]
  simp

/-! ### Claim C1 -/

/-- Claim C1, as stated, is false at MaxRetries = 2 with the default
retry policy and a transport that always returns status 502 (every
outcome retryable): the simple client performs 2 transport attempts,
not 2 + 1, and the breaker-wrapped client performs 1, not 2. -/
theorem C1_counterexample :
    attemptsOf (httpDo ⟨2, fun _ => 0, DefaultRetryPolicy⟩
        ⟨"GET", "http://example.com", none⟩ (fun _ => .ok ⟨502⟩)).events ≠ 2 + 1 ∧
    attemptsOf (hystrixDo ⟨2, fun _ => 0, DefaultRetryPolicy⟩
        ⟨"GET", "http://example.com"⟩ (fun _ => .ok ⟨502⟩)).events ≠ 2 := by
  decide

/-- Claim C1 as amended: with MaxRetries = m > 0 and every attempt
outcome judged retryable (and every body seek succeeding), the simple
(rewinding) client performs exactly m transport attempts before giving
up, while the breaker-wrapped (hystrix) client performs exactly 1
transport attempt and returns the first attempt's response with a nil
error instead of giving up (when that outcome is a response). -/
theorem C1_attempt_counting :
    (∀ (c : ClientModel) (req : ReqModel) (tr : Nat → Outcome),
      0 < c.maxRetries →
      (∀ j sf, req.body = some sf → sf j = none) →
      (∀ j, (c.checkRetry (tr j)).fst = true) →
      attemptsOf (httpDo c req tr).events = c.maxRetries.toNat) ∧
    (∀ (c : ClientModel) (req : PlainReq) (tr : Nat → Outcome) (r : Response),
      0 < c.maxRetries →
      (∀ j, (c.checkRetry (tr j)).fst = true) →
      tr 0 = .ok r →
      attemptsOf (hystrixDo c req tr).events = 1 ∧
      (hystrixDo c req tr).out = .ret (some r) none) := by
  constructor
  · intro c req tr _ hseek hretry
    exact (httpDoLoop_allRetry c req tr hseek hretry c.maxRetries.toNat 0).2.2
  · intro c req tr r hm hretry h0
    have hcr := hretry 0
    rw [h0] at hcr
    rw [hystrixDo_firstRetryableOk c req tr r hm hcr h0]
    exact ⟨rfl, rfl⟩

/-- Witness for `C1_attempt_counting` at MaxRetries = 3, default
policy, transport always returning status 503. -/
theorem C1_attempt_counting_witness :
    attemptsOf (httpDo ⟨3, fun _ => 0, DefaultRetryPolicy⟩
        ⟨"GET", "http://w", none⟩ (fun _ => .ok ⟨503⟩)).events = 3 ∧
    attemptsOf (hystrixDo ⟨3, fun _ => 0, DefaultRetryPolicy⟩
        ⟨"GET", "http://w"⟩ (fun _ => .ok ⟨503⟩)).events = 1 ∧
    (hystrixDo ⟨3, fun _ => 0, DefaultRetryPolicy⟩
        ⟨"GET", "http://w"⟩ (fun _ => .ok ⟨503⟩)).out = .ret (some ⟨503⟩) none :=
  ⟨C1_attempt_counting.1 ⟨3, fun _ => 0, DefaultRetryPolicy⟩ ⟨"GET", "http://w", none⟩
      (fun _ => .ok ⟨503⟩) (by decide) (fun j sf h => Option.noConfusion h)
      (fun j => rfl),
   (C1_attempt_counting.2 ⟨3, fun _ => 0, DefaultRetryPolicy⟩ ⟨"GET", "http://w"⟩
      (fun _ => .ok ⟨503⟩) ⟨503⟩ (by decide) (fun j => rfl) rfl).1,
   (C1_attempt_counting.2 ⟨3, fun _ => 0, DefaultRetryPolicy⟩ ⟨"GET", "http://w"⟩
      (fun _ => .ok ⟨503⟩) ⟨503⟩ (by decide) (fun j => rfl) rfl).2⟩

/-! ### Claim C2 -/

/-- Claim C2, as stated, is false for the breaker-wrapped client: at
MaxRetries = 2 with the default policy and a transport always
returning status 502 (every outcome retryable), `HystrixClient.Do`
returns the first 502 response with a nil error after one attempt — a
partial response and no synthesized exhaustion error. -/
theorem C2_counterexample :
    hystrixDo ⟨2, fun _ => 0, DefaultRetryPolicy⟩ ⟨"POST", "http://api"⟩
        (fun _ => .ok ⟨502⟩) =
      ⟨.ret (some ⟨502⟩) none, [.attempt 0, .drain 0]⟩ ∧
    (hystrixDo ⟨2, fun _ => 0, DefaultRetryPolicy⟩ ⟨"POST", "http://api"⟩
        (fun _ => .ok ⟨502⟩)).out ≠
      .ret none (some (givingUpErr "POST" "http://api" 2)) := by
  constructor
  · decide
  · decide

/-- Claim C2 as amended: in the simple (rewinding) client, a call in
which the policy judges every attempt's outcome retryable (and every
body seek succeeds) returns a nil response together with the single
synthesized error naming the request method, the target URL, and the
attempt count `MaxRetries`; the breaker-wrapped client never reaches
exhaustion under all-retryable outcomes — it returns the first
attempt's response with a nil error instead. -/
theorem C2_exhaustion :
    (∀ (c : ClientModel) (req : ReqModel) (tr : Nat → Outcome),
      (∀ j sf, req.body = some sf → sf j = none) →
      (∀ j, (c.checkRetry (tr j)).fst = true) →
      (httpDo c req tr).resp = none ∧
      (httpDo c req tr).err = some (givingUpErr req.method req.url c.maxRetries)) ∧
    (∀ (c : ClientModel) (req : PlainReq) (tr : Nat → Outcome) (r : Response),
      0 < c.maxRetries →
      (∀ j, (c.checkRetry (tr j)).fst = true) →
      tr 0 = .ok r →
      (hystrixDo c req tr).out = .ret (some r) none) := by
  constructor
  · intro c req tr hseek hretry
    exact ⟨(httpDoLoop_allRetry c req tr hseek hretry c.maxRetries.toNat 0).1,
      (httpDoLoop_allRetry c req tr hseek hretry c.maxRetries.toNat 0).2.1⟩
  · intro c req tr r hm hretry h0
    have hcr := hretry 0
    rw [h0] at hcr
    rw [hystrixDo_firstRetryableOk c req tr r hm hcr h0]

/-- Witness for `C2_exhaustion` at MaxRetries = 2, default policy,
transport always returning status 500. -/
theorem C2_exhaustion_witness :
    (httpDo ⟨2, fun _ => 0, DefaultRetryPolicy⟩
        ⟨"PUT", "http://w2", none⟩ (fun _ => .ok ⟨500⟩)).resp = none ∧
    (httpDo ⟨2, fun _ => 0, DefaultRetryPolicy⟩
        ⟨"PUT", "http://w2", none⟩ (fun _ => .ok ⟨500⟩)).err =
      some (givingUpErr "PUT" "http://w2" 2) ∧
    (hystrixDo ⟨2, fun _ => 0, DefaultRetryPolicy⟩
        ⟨"PUT", "http://w2"⟩ (fun _ => .ok ⟨500⟩)).out = .ret (some ⟨500⟩) none :=
  ⟨(C2_exhaustion.1 ⟨2, fun _ => 0, DefaultRetryPolicy⟩ ⟨"PUT", "http://w2", none⟩
      (fun _ => .ok ⟨500⟩) (fun j sf h => Option.noConfusion h) (fun j => rfl)).1,
   (C2_exhaustion.1 ⟨2, fun _ => 0, DefaultRetryPolicy⟩ ⟨"PUT", "http://w2", none⟩
      (fun _ => .ok ⟨500⟩) (fun j sf h => Option.noConfusion h) (fun j => rfl)).2,
   C2_exhaustion.2 ⟨2, fun _ => 0, DefaultRetryPolicy⟩ ⟨"PUT", "http://w2"⟩
      (fun _ => .ok ⟨500⟩) ⟨500⟩ (by decide) (fun j => rfl) rfl⟩

/-! ### Claim C3 -/

/-- Claim C3: `DefaultRetryPolicy` retries exactly on a non-nil
transport error, a status code of 0, or a status code of at least 500;
every other outcome (all 4xx included) is terminal, and in the
rewinding client a terminal response is returned to the caller
unchanged with no further attempt and no sleep. -/
theorem C3_default_retry_policy :
    (∀ e : Err, DefaultRetryPolicy (.fail e) = (true, some e)) ∧
    (∀ r : Response,
      (DefaultRetryPolicy (.ok r)).fst = true ↔
        r.statusCode = 0 ∨ 500 ≤ r.statusCode) ∧
    (∀ (c : ClientModel) (req : ReqModel) (tr : Nat → Outcome) (r : Response),
      c.checkRetry = DefaultRetryPolicy →
      0 < c.maxRetries →
      (∀ sf, req.body = some sf → sf 0 = none) →
      tr 0 = .ok r →
      r.statusCode ≠ 0 →
      r.statusCode < 500 →
      (httpDo c req tr).resp = some r ∧
      (httpDo c req tr).err = none ∧
      attemptsOf (httpDo c req tr).events = 1 ∧
      sleepsOf (httpDo c req tr).events = []) := by
  refine ⟨fun e => rfl, fun r => ?_, ?_⟩
  · constructor
    · intro h
      by_contra hcond
      simp only [DefaultRetryPolicy, if_neg hcond] at h
      exact Bool.noConfusion h
    · intro hcond
      simp [DefaultRetryPolicy, if_pos hcond]
  · intro c req tr r hcrd hm hseek h0 hnz hlt
    obtain ⟨n, hn⟩ : ∃ n, c.maxRetries.toNat = n + 1 :=
      ⟨c.maxRetries.toNat - 1, by omega⟩
    have hcond : ¬ (r.statusCode = 0 ∨ 500 ≤ r.statusCode) := by
      push_neg
      exact ⟨hnz, by omega⟩
    have hpol : c.checkRetry (tr 0) = (false, none) := by
      rw [hcrd, h0]
      simp [DefaultRetryPolicy, if_neg hcond]
    cases hb : req.body with
    | none =>
      simp only [httpDo, hn, httpDoLoop, hb, httpIter, hpol]
      simp [attemptsOf, sleepsOf, Outcome.toResp, overrideErr, Outcome.toErr, h0]
    | some sf =>
      have hsf := hseek sf hb
      simp only [httpDo, hn, httpDoLoop, hb, hsf, httpIter, hpol]
      simp [attemptsOf, sleepsOf, Outcome.toResp, overrideErr, Outcome.toErr, h0]

/-- Witness for `C3_default_retry_policy`: a 404 response under the
default policy is returned as-is after one attempt with no sleep. -/
theorem C3_default_retry_policy_witness :
    (httpDo ⟨2, fun _ => 0, DefaultRetryPolicy⟩
        ⟨"GET", "http://w3", none⟩ (fun _ => .ok ⟨404⟩)).resp = some ⟨404⟩ ∧
    (httpDo ⟨2, fun _ => 0, DefaultRetryPolicy⟩
        ⟨"GET", "http://w3", none⟩ (fun _ => .ok ⟨404⟩)).err = none ∧
    attemptsOf (httpDo ⟨2, fun _ => 0, DefaultRetryPolicy⟩
        ⟨"GET", "http://w3", none⟩ (fun _ => .ok ⟨404⟩)).events = 1 ∧
    sleepsOf (httpDo ⟨2, fun _ => 0, DefaultRetryPolicy⟩
        ⟨"GET", "http://w3", none⟩ (fun _ => .ok ⟨404⟩)).events = [] :=
  C3_default_retry_policy.2.2 ⟨2, fun _ => 0, DefaultRetryPolicy⟩
    ⟨"GET", "http://w3", none⟩ (fun _ => .ok ⟨404⟩) ⟨404⟩ rfl (by decide)
    (fun sf h => Option.noConfusion h) rfl (by decide) (by decide)

/-! ### Claim C4 -/

/-- Claim C4 is violated by `HystrixClient.Do`, contradicting the
`CheckRetry` documentation in the source ("If CheckRetry returns
false, the Client stops retrying and returns the response to the
caller").  First scenario: MaxRetries = 2, a policy that answers a 404
response with `(false, override error)`, a transport always returning
404 — the client sleeps, retries, performs 2 attempts, and gives up
with a nil response instead of immediately returning the 404 response
with the override error.  Second scenario: the default policy on a 404
— the decision is terminal, but the client drains (and closes) the
response body before returning it, while the claim requires the body
untouched. -/
theorem C4_done_transition_bug :
    hystrixDo
        ⟨2, (constantBackoff.mk 7).NextInterval,
          fun o => match o with
            | .ok r => if r.statusCode = 404 then (false, some ⟨"terminal 404"⟩)
                       else (true, none)
            | .fail e => (true, some e)⟩
        ⟨"GET", "http://u"⟩ (fun _ => .ok ⟨404⟩) =
      ⟨.ret none (some (givingUpErr "GET" "http://u" 3)),
        [.attempt 0, .sleep 0, .attempt 1, .sleep 7]⟩ ∧
    hystrixDo ⟨2, (constantBackoff.mk 7).NextInterval, DefaultRetryPolicy⟩
        ⟨"GET", "http://u"⟩ (fun _ => .ok ⟨404⟩) =
      ⟨.ret (some ⟨404⟩) none, [.attempt 0, .drain 0]⟩ := by
  exact ⟨by decide, by decide⟩

/-! ### Claim C5 -/

/-- When the loop of the rewinding client reaches iteration `k` (all
earlier seeks succeeded and all earlier outcomes were retryable) and
the body seek at iteration `k` fails, the call aborts at once with a
nil response and the seek-failure error, having performed exactly `k`
transport attempts and `k + 1` seeks. -/
theorem httpDoLoop_seekFail (c : ClientModel) (req : ReqModel) (tr : Nat → Outcome)
    (sf : Nat → Option Err) (hb : req.body = some sf) (e : Err) :
    ∀ (k i fuel : Nat), k < fuel →
      (∀ j, j < k → sf (i + j) = none ∧ (c.checkRetry (tr (i + j))).fst = true) →
      sf (i + k) = some e →
      (httpDoLoop c req tr i fuel).resp = none ∧
      (httpDoLoop c req tr i fuel).err = some (seekFailErr e) ∧
      attemptsOf (httpDoLoop c req tr i fuel).events = k ∧
      seeksOf (httpDoLoop c req tr i fuel).events = k + 1 := by
  intro k
  induction k with
  | zero =>
    intro i fuel hk hok hfail
    obtain ⟨f, rfl⟩ : ∃ f, fuel = f + 1 := ⟨fuel - 1, by omega⟩
    rw [Nat.add_zero] at hfail
    simp [httpDoLoop, hb, hfail, attemptsOf, seeksOf]
  | succ k ih =>
    intro i fuel hk hok hfail
    obtain ⟨f, rfl⟩ : ∃ f, fuel = f + 1 := ⟨fuel - 1, by omega⟩
    have h0 := hok 0 (by omega)
    rw [Nat.add_zero] at h0
    have hcr := h0.2
    have hihok : ∀ j, j < k →
        sf (i + 1 + j) = none ∧ (c.checkRetry (tr (i + 1 + j))).fst = true := by
      intro j hj
      have hj1 := hok (j + 1) (by omega)
      rwa [show i + (j + 1) = i + 1 + j by omega] at hj1
    have hihfail : sf (i + 1 + k) = some e := by
      rwa [show i + 1 + k = i + (k + 1) by omega]
    obtain ⟨r1, r2, r3, r4⟩ := ih (i + 1) f (by omega) hihok hihfail
    simp only [httpDoLoop, hb, h0.1, httpIter, hcr]
    simp [attemptsOf, seeksOf, r1, r2, r3, r4]

/-- With a body present, every transport attempt in the rewinding
client is preceded by its own body seek, so the trace never holds more
attempts than seeks. -/
theorem attemptsOf_le_seeksOf (c : ClientModel) (req : ReqModel) (tr : Nat → Outcome)
    (sf : Nat → Option Err) (hb : req.body = some sf) :
    ∀ (fuel i : Nat),
      attemptsOf (httpDoLoop c req tr i fuel).events ≤
        seeksOf (httpDoLoop c req tr i fuel).events := by
  intro fuel
  induction fuel with
  | zero => intro i; exact Nat.le_refl 0
  | succ f ih =>
    intro i
    cases hsf : sf i with
    | some e => simp [httpDoLoop, hb, hsf, attemptsOf, seeksOf]
    | none =>
      simp only [httpDoLoop, hb, hsf, httpIter]
      by_cases hcr : (c.checkRetry (tr i)).fst = false
      · simp [hcr, attemptsOf, seeksOf]
      · have hle := ih (i + 1)
        simp only [hcr, if_false]
        simp [attemptsOf, seeksOf]
        omega

/-- Claim C5: the rewinding client seeks the body back to offset zero
before every attempt (so a trace never has more attempts than seeks),
and if the seek at some reached iteration fails, the whole call aborts
at once — nil response, distinct seek-failure error, no further
attempt and no retry. -/
theorem C5_seek_failure_fatal :
    (∀ (c : ClientModel) (req : ReqModel) (tr : Nat → Outcome) (sf : Nat → Option Err),
      req.body = some sf →
      ∀ (k : Nat) (e : Err), k < c.maxRetries.toNat →
      (∀ j, j < k → sf j = none ∧ (c.checkRetry (tr j)).fst = true) →
      sf k = some e →
      (httpDo c req tr).resp = none ∧
      (httpDo c req tr).err = some (seekFailErr e) ∧
      attemptsOf (httpDo c req tr).events = k ∧
      seeksOf (httpDo c req tr).events = k + 1) ∧
    (∀ (c : ClientModel) (req : ReqModel) (tr : Nat → Outcome) (sf : Nat → Option Err),
      req.body = some sf →
      attemptsOf (httpDo c req tr).events ≤ seeksOf (httpDo c req tr).events) := by
  constructor
  · intro c req tr sf hb k e hk hok hfail
    have hok0 : ∀ j, j < k → sf (0 + j) = none ∧ (c.checkRetry (tr (0 + j))).fst = true := by
      intro j hj
      rw [Nat.zero_add]
      exact hok j hj
    have hfail0 : sf (0 + k) = some e := by rw [Nat.zero_add]; exact hfail
    exact httpDoLoop_seekFail c req tr sf hb e k 0 c.maxRetries.toNat hk hok0 hfail0
  · intro c req tr sf hb
    exact attemptsOf_le_seeksOf c req tr sf hb c.maxRetries.toNat 0

/-- Witness for `C5_seek_failure_fatal`: MaxRetries = 3, a body whose
second seek (iteration 1) fails, default policy, transport always
returning 500. -/
theorem C5_seek_failure_fatal_witness :
    (httpDo ⟨3, fun _ => 0, DefaultRetryPolicy⟩
        ⟨"POST", "http://w5", some fun i => if i = 1 then some ⟨"pipe closed"⟩ else none⟩
        (fun _ => .ok ⟨500⟩)).resp = none ∧
    (httpDo ⟨3, fun _ => 0, DefaultRetryPolicy⟩
        ⟨"POST", "http://w5", some fun i => if i = 1 then some ⟨"pipe closed"⟩ else none⟩
        (fun _ => .ok ⟨500⟩)).err = some (seekFailErr ⟨"pipe closed"⟩) ∧
    attemptsOf (httpDo ⟨3, fun _ => 0, DefaultRetryPolicy⟩
        ⟨"POST", "http://w5", some fun i => if i = 1 then some ⟨"pipe closed"⟩ else none⟩
        (fun _ => .ok ⟨500⟩)).events = 1 ∧
    seeksOf (httpDo ⟨3, fun _ => 0, DefaultRetryPolicy⟩
        ⟨"POST", "http://w5", some fun i => if i = 1 then some ⟨"pipe closed"⟩ else none⟩
        (fun _ => .ok ⟨500⟩)).events = 1 + 1 :=
  C5_seek_failure_fatal.1 ⟨3, fun _ => 0, DefaultRetryPolicy⟩
    ⟨"POST", "http://w5", some fun i => if i = 1 then some ⟨"pipe closed"⟩ else none⟩
    (fun _ => .ok ⟨500⟩) (fun i => if i = 1 then some ⟨"pipe closed"⟩ else none) rfl
    1 ⟨"pipe closed"⟩ (by decide) (by decide) (by decide)

/-! ### Claim C6 -/

/-- Truncation toward zero of an exact integer is that integer. -/
theorem truncQ_intCast (M : Int) : truncQ (M : ℚ) = M := by
  unfold truncQ
  split
  · exact Int.floor_intCast M
  · exact Int.ceil_intCast M

/-- Truncation toward zero commutes with the minimum against an exact
integer bound. -/
theorem truncQ_min_intCast (a : ℚ) (M : Int) :
    truncQ (min a (M : ℚ)) = min M (truncQ a) := by
  rcases le_total a (M : ℚ) with h | h
  · rw [min_eq_left h]
    have hle : truncQ a ≤ M := by
      unfold truncQ
      split
      · simpa using Int.floor_mono h
      · calc ⌈a⌉ ≤ ⌈(M : ℚ)⌉ := Int.ceil_mono h
          _ = M := Int.ceil_intCast M
    rw [min_eq_right hle]
  · rw [min_eq_right h, truncQ_intCast]
    have hle : M ≤ truncQ a := by
      unfold truncQ
      split
      · calc M = ⌊(M : ℚ)⌋ := (Int.floor_intCast M).symm
          _ ≤ ⌊a⌋ := Int.floor_mono h
      · calc M = ⌈(M : ℚ)⌉ := (Int.ceil_intCast M).symm
          _ ≤ ⌈a⌉ := Int.ceil_mono h
    rw [min_eq_left hle]

/-- Claim C6: for every retry index `n ≥ 1` the exponential strategy
computes `min(maxTimeout, minTimeout * factor^n)` (the product
truncated to a duration as Go's float-to-duration conversion does),
and with minTimeout = 2ms, maxTimeout = 10ms, factor = 2.0 it yields
4ms at index 1 and the clamped 10ms at index 4. -/
theorem C6_exponential_formula :
    (∀ (e : exponentialBackoff) (n : Int), 1 ≤ n →
      e.NextInterval n =
        min e.maxTimeout (truncQ ((e.minTimeout : ℚ) * e.factor ^ n.toNat))) ∧
    exponentialBackoff.NextInterval ⟨2, 2000000, 10000000⟩ 1 = 4000000 ∧
    exponentialBackoff.NextInterval ⟨2, 2000000, 10000000⟩ 4 = 10000000 := by
  refine ⟨?_, ?_, ?_⟩
  · intro e n hn
    have hnle : ¬ n ≤ 0 := by omega
    unfold exponentialBackoff.NextInterval
    rw [if_neg hnle, truncQ_min_intCast, mul_comm]
  · norm_num [exponentialBackoff.NextInterval, truncQ,
      show (1 : Int).toNat = 1 from rfl]
  · norm_num [exponentialBackoff.NextInterval, truncQ,
      show (4 : Int).toNat = 4 from rfl]

/-- Witness for `C6_exponential_formula` at factor 2, minTimeout 2ms,
maxTimeout 10ms, index 2 (both sides evaluate to 8ms). -/
theorem C6_exponential_formula_witness :
    exponentialBackoff.NextInterval ⟨2, 2000000, 10000000⟩ 2 =
      min 10000000 (truncQ ((2000000 : ℚ) * 2 ^ (2 : Int).toNat)) ∧
    exponentialBackoff.NextInterval ⟨2, 2000000, 10000000⟩ 2 = 8000000 := by
  constructor
  · exact C6_exponential_formula.1 ⟨2, 2000000, 10000000⟩ 2 (by norm_num)
  · norm_num [exponentialBackoff.NextInterval, truncQ,
      show (2 : Int).toNat = 2 from rfl]

/-! ### Claim C7 -/

/-- Claim C7: for every retry index less than or equal to zero, each
of the three backoff strategies returns a zero duration. -/
theorem C7_zero_wait_at_nonpositive_index :
    ∀ (n : Int), n ≤ 0 →
      (∀ cb : constantBackoff, cb.NextInterval n = 0) ∧
      (∀ e : exponentialBackoff, e.NextInterval n = 0) ∧
      (∀ (e : jitterBackoff) (randv : ℚ), e.NextInterval randv n = 0) := by
  intro n hn
  refine ⟨fun cb => ?_, fun e => ?_, fun e randv => ?_⟩
  · simp [constantBackoff.NextInterval, hn]
  · simp [exponentialBackoff.NextInterval, hn]
  · simp [jitterBackoff.NextInterval, hn]

/-- Witness for `C7_zero_wait_at_nonpositive_index` at index -1. -/
theorem C7_zero_wait_at_nonpositive_index_witness :
    constantBackoff.NextInterval ⟨5000000⟩ (-1) = 0 ∧
    exponentialBackoff.NextInterval ⟨2, 2000000, 10000000⟩ (-1) = 0 ∧
    jitterBackoff.NextInterval ⟨2, 2000000, 10000000⟩ (1 / 2) (-1) = 0 :=
  ⟨(C7_zero_wait_at_nonpositive_index (-1) (by decide)).1 ⟨5000000⟩,
   (C7_zero_wait_at_nonpositive_index (-1) (by decide)).2.1 ⟨2, 2000000, 10000000⟩,
   (C7_zero_wait_at_nonpositive_index (-1) (by decide)).2.2 ⟨2, 2000000, 10000000⟩ (1 / 2)⟩

/-! ### Claim C8 -/

/-- Claim C8: when `NewRequest` succeeds and the non-nil body exposes
a length through `LenReader`, the constructed request's
`ContentLength` is exactly that exposed length. -/
theorem C8_content_length (b : LenBody) (n : Int) (base : HttpRequestModel)
    (h : b.len = some n) :
    NewRequest (some b) (.ok base) =
      .ok (some b, { base with contentLength := n }) := by
  simp [NewRequest, h]

/-- Witness for `C8_content_length`: a body of exposed length 13. -/
theorem C8_content_length_witness :
    NewRequest (some ⟨some 13⟩) (.ok ⟨"POST", "http://w8", 0⟩) =
      .ok (some ⟨some 13⟩, ⟨"POST", "http://w8", 13⟩) :=
  C8_content_length ⟨some 13⟩ 13 ⟨"POST", "http://w8", 0⟩ rfl

/-! ### Claim C9 -/

/-- Claim C9: with MaxRetries zero or negative, both clients perform
no transport attempt at all (the trace is empty) and immediately
return a nil response with the synthesized exhaustion error — naming
MaxRetries attempts in the simple client (and MaxRetries + 1 in the
breaker-wrapped one). -/
theorem C9_zero_budget (c : ClientModel) (req : ReqModel) (preq : PlainReq)
    (tr tr2 : Nat → Outcome) (hm : c.maxRetries ≤ 0) :
    httpDo c req tr = ⟨none, some (givingUpErr req.method req.url c.maxRetries), []⟩ ∧
    hystrixDo c preq tr2 =
      ⟨.ret none (some (givingUpErr preq.method preq.url (c.maxRetries + 1))), []⟩ := by
  have h0 : c.maxRetries.toNat = 0 := Int.toNat_of_nonpos hm
  constructor
  · rw [httpDo, h0]
    rfl
  · rw [hystrixDo, h0]
    rfl

/-- Witness for `C9_zero_budget` at MaxRetries = 0. -/
theorem C9_zero_budget_witness :
    httpDo ⟨0, fun _ => 0, DefaultRetryPolicy⟩ ⟨"GET", "http://w9", none⟩
        (fun _ => .ok ⟨200⟩) =
      ⟨none, some (givingUpErr "GET" "http://w9" 0), []⟩ ∧
    hystrixDo ⟨0, fun _ => 0, DefaultRetryPolicy⟩ ⟨"GET", "http://w9"⟩
        (fun _ => .ok ⟨200⟩) =
      ⟨.ret none (some (givingUpErr "GET" "http://w9" 1)), []⟩ :=
  ⟨(C9_zero_budget ⟨0, fun _ => 0, DefaultRetryPolicy⟩ ⟨"GET", "http://w9", none⟩
      ⟨"GET", "http://w9"⟩ (fun _ => .ok ⟨200⟩) (fun _ => .ok ⟨200⟩) (by decide)).1,
   (C9_zero_budget ⟨0, fun _ => 0, DefaultRetryPolicy⟩ ⟨"GET", "http://w9", none⟩
      ⟨"GET", "http://w9"⟩ (fun _ => .ok ⟨200⟩) (fun _ => .ok ⟨200⟩) (by decide)).2⟩

/-! ### Claim C10 -/

/-- Splitting a range-indexed map of backoff values at the head. -/
theorem range_map_backoff (b : Int → Int) (i k : Nat) :
    (List.range (k + 1)).map (fun j => b ((i + j : Nat) : Int)) =
      b ((i : Nat) : Int) ::
        (List.range k).map (fun j => b ((i + 1 + j : Nat) : Int)) := by
  rw [List.range_succ_eq_map, List.map_cons, List.map_map]
  have h1 : b ((i + 0 : Nat) : Int) = b ((i : Nat) : Int) := by norm_num
  have h2 : List.map ((fun j => b ((i + j : Nat) : Int)) ∘ Nat.succ) (List.range k) =
      List.map (fun j => b ((i + 1 + j : Nat) : Int)) (List.range k) := by
    apply List.map_congr_left
    intro a _
    simp only [Function.comp_apply]
    congr 1
    push_cast
    omega
  rw [h2]
  exact congrArg (fun x => x :: _) h1

/-- The sleep durations of any run of the rewinding client's loop,
started at index `i`, are exactly `NextInterval(i), NextInterval(i+1),
...` for some number of retries bounded by the remaining fuel. -/
theorem sleepsOf_httpDoLoop (c : ClientModel) (req : ReqModel) (tr : Nat → Outcome) :
    ∀ (fuel i : Nat), ∃ k, k ≤ fuel ∧
      sleepsOf (httpDoLoop c req tr i fuel).events =
        (List.range k).map (fun j => c.backoff ((i + j : Nat) : Int)) := by
  intro fuel
  induction fuel with
  | zero => exact fun i => ⟨0, Nat.le_refl 0, rfl⟩
  | succ f ih =>
    intro i
    obtain ⟨k, hk, hs⟩ := ih (i + 1)
    by_cases hcr : (c.checkRetry (tr i)).fst = false
    · refine ⟨0, by omega, ?_⟩
      cases hb : req.body with
      | none => simp [httpDoLoop, hb, httpIter, hcr, sleepsOf]
      | some sf =>
        cases hsf : sf i with
        | some e => simp [httpDoLoop, hb, hsf, sleepsOf]
        | none => simp [httpDoLoop, hb, hsf, httpIter, hcr, sleepsOf]
    · cases hb : req.body with
      | none =>
        refine ⟨k + 1, by omega, ?_⟩
        rw [range_map_backoff]
        simp only [httpDoLoop, hb, httpIter, hcr, if_false]
        simp [sleepsOf, hs]
      | some sf =>
        cases hsf : sf i with
        | some e =>
          refine ⟨0, by omega, ?_⟩
          simp [httpDoLoop, hb, hsf, sleepsOf]
        | none =>
          refine ⟨k + 1, by omega, ?_⟩
          rw [range_map_backoff]
          simp only [httpDoLoop, hb, hsf, httpIter, hcr, if_false]
          simp [sleepsOf, hs]

/-- Claim C10: in the rewinding client the sleep after the (i+1)-th
attempt is `NextInterval(i)` with `i` counted from 0 — the recorded
sleeps of any run are exactly `NextInterval(0), NextInterval(1), ...`;
each provided backoff strategy returns zero at index 0, so the pause
between the first attempt and the first retry is always zero; and with
MaxRetries = 2 every recorded sleep is `NextInterval(0)` or
`NextInterval(1)`. -/
theorem C10_first_retry_no_wait :
    (∀ (c : ClientModel) (req : ReqModel) (tr : Nat → Outcome),
      ∃ k, k ≤ c.maxRetries.toNat ∧
        sleepsOf (httpDo c req tr).events =
          (List.range k).map (fun j : Nat => c.backoff (j : Int))) ∧
    (∀ cb : constantBackoff, cb.NextInterval 0 = 0) ∧
    (∀ e : exponentialBackoff, e.NextInterval 0 = 0) ∧
    (∀ (e : jitterBackoff) (randv : ℚ), e.NextInterval randv 0 = 0) ∧
    (∀ (c : ClientModel) (req : ReqModel) (tr : Nat → Outcome),
      c.maxRetries = 2 →
      ∀ d ∈ sleepsOf (httpDo c req tr).events,
        d = c.backoff 0 ∨ d = c.backoff 1) := by
  have hmain : ∀ (c : ClientModel) (req : ReqModel) (tr : Nat → Outcome),
      ∃ k, k ≤ c.maxRetries.toNat ∧
        sleepsOf (httpDo c req tr).events =
          (List.range k).map (fun j : Nat => c.backoff (j : Int)) := by
    intro c req tr
    obtain ⟨k, hk, hs⟩ := sleepsOf_httpDoLoop c req tr c.maxRetries.toNat 0
    refine ⟨k, hk, ?_⟩
    rw [httpDo, hs]
    apply List.map_congr_left
    intro a _
    norm_num
  refine ⟨hmain, fun cb => rfl, fun e => rfl, fun e randv => rfl, ?_⟩
  intro c req tr hm d hd
  obtain ⟨k, hk, hs⟩ := hmain c req tr
  rw [hs] at hd
  obtain ⟨j, hj, hfj⟩ := List.mem_map.mp hd
  have hjk := List.mem_range.mp hj
  have hk2 : k ≤ 2 := by rw [hm] at hk; exact hk
  have hj01 : j = 0 ∨ j = 1 := by omega
  rcases hj01 with rfl | rfl
  · left; rw [← hfj]; norm_num
  · right; rw [← hfj]; norm_num

/-- Witness for `C10_first_retry_no_wait`: MaxRetries = 2, constant
backoff of 7ns, default policy, transport always returning 500 — the
recorded sleeps are `[NextInterval(0), NextInterval(1)] = [0, 7]`. -/
theorem C10_first_retry_no_wait_witness :
    (7 : Int) = constantBackoff.NextInterval ⟨7⟩ 0 ∨
      (7 : Int) = constantBackoff.NextInterval ⟨7⟩ 1 :=
  C10_first_retry_no_wait.2.2.2.2
    ⟨2, constantBackoff.NextInterval ⟨7⟩, DefaultRetryPolicy⟩
    ⟨"GET", "http://w10", none⟩ (fun _ => .ok ⟨500⟩) rfl 7 (by decide)

end Boomerang
